import Mathlib

/-!
Shallow embedding of `import_script.py` (re2o CSV user import script).

The script parses CSV rows, derives a username from the email local part,
resolves a room reference, checks username uniqueness, creates account rows,
fires a password-reset HTTP request per user, and optionally creates
invoice/line-item rows for a fixed ARTICLES list, all inside one atomic
database transaction.

The database is modelled as explicit record lists; Django ORM calls become
pure functions over that state; fallible Python operations return
`Except Err`.  HTTP posts and row creations are additionally recorded in an
event trace so that ordering and side-effect claims can be stated.
-/

namespace ImportScript

/-- Errors the script can raise: Django `DoesNotExist`, Django
`MultipleObjectsReturned`, Python `IndexError` (list subscript),
Python `ValueError` (`str.index` with no occurrence), and a plain
`Exception` with a message (raised by `check_constraints`). -/
inductive Err where
  | doesNotExist : Err
  | multipleObjects : Err
  | indexError : Err
  | valueError : Err
  | exception : String → Err
deriving Repr, DecidableEq

/-- `users.models.Adherent` row, with the fields the script touches.
`room` is an optional room primary key; `school` is a school primary key. -/
structure Adherent where
  id : Nat
  name : String
  surname : String
  pseudo : String
  email : String
  school : Nat
  comment : String
  state : Nat
  email_state : Nat
  room : Option Nat
deriving Repr, DecidableEq

/-- `topologie.models.Building` row. -/
structure Building where
  id : Nat
  name : String
deriving Repr, DecidableEq

/-- `topologie.models.Room` row; `building` is a building primary key. -/
structure Room where
  id : Nat
  building : Nat
  name : String
deriving Repr, DecidableEq

/-- `cotisations.models.Article` row (catalog item). -/
structure Article where
  id : Nat
  name : String
  prix : Int
  duration_connection : Nat
  duration_days_connection : Nat
  duration_membership : Nat
  duration_days_membership : Nat
deriving Repr, DecidableEq

/-- `cotisations.models.Facture` (invoice) row; `user` is an adherent
primary key, `paiement` a payment-method primary key. -/
structure Facture where
  id : Nat
  user : Nat
  paiement : Nat
  valid : Bool
  control : Bool
deriving Repr, DecidableEq

/-- `cotisations.models.Vente` (invoice line item) row; `facture` is an
invoice primary key. -/
structure Vente where
  facture : Nat
  name : String
  prix : Int
  duration_connection : Nat
  duration_days_connection : Nat
  duration_membership : Nat
  duration_days_membership : Nat
  number : Nat
deriving Repr, DecidableEq

/-- The database state: one list per table the script touches.  Schools and
payment methods are only ever looked up by primary key, so they are modelled
by their primary keys.  `nextId` supplies fresh primary keys on creation. -/
structure DB where
  adherents : List Adherent
  schools : List Nat
  paiements : List Nat
  buildings : List Building
  rooms : List Room
  articles : List Article
  factures : List Facture
  ventes : List Vente
  nextId : Nat
deriving Repr, DecidableEq

/-- `User.STATE_ACTIVE` framework constant (value irrelevant here, only
identity with itself is used). -/
def STATE_ACTIVE : Nat := 0

/-- `User.EMAIL_STATE_VERIFIED` framework constant. -/
def EMAIL_STATE_VERIFIED : Nat := 0

/-- The script parameters hard-coded at the top of the file (`PATH` is
subsumed by passing the parsed CSV rows directly). -/
structure Params where
  SCHOOL_ID : Nat
  ARTICLES : List (Nat × Nat)
  PAYMENT_METHOD : Nat
  COMMENT : String

/-- The concrete parameter values of the script. -/
def defaultParams : Params :=
  { SCHOOL_ID := 1, ARTICLES := [(1, 4)], PAYMENT_METHOD := 1,
    COMMENT := "Example" }

/-- Django `Model.objects.get`: exactly one matching row, else
`DoesNotExist` (zero) or `MultipleObjectsReturned` (several). -/
def getUnique {α : Type} (l : List α) (p : α → Bool) : Except Err α :=
  match l.filter p with
  | [] => .error .doesNotExist
  | [x] => .ok x
  | _ :: _ :: _ => .error .multipleObjects

/-- Python `str.split(sep)` on a single-character separator, on the
character list of the string.  Always returns a nonempty list; splitting
the empty string yields `[[]]`, as in Python. -/
def pySplit (sep : Char) : List Char → List (List Char)
  | [] => [[]]
  | c :: cs =>
    if c = sep then [] :: pySplit sep cs
    else
      match pySplit sep cs with
      | [] => [[c]]
      | h :: t => (c :: h) :: t

/-- Python `str.index(sep)` for a single character: index of the first
occurrence, `ValueError` when absent. -/
def pyIndex (sep : Char) : List Char → Except Err Nat
  | [] => .error .valueError
  | c :: cs =>
    if c = sep then .ok 0
    else (pyIndex sep cs).map (· + 1)

/-- Python `row[i]` on a list (nonnegative index): the element, or
`IndexError`. -/
def pyNth : List String → Nat → Except Err String
  | [], _ => .error .indexError
  | s :: _, 0 => .ok s
  | _ :: rest, n + 1 => pyNth rest n

/-- `CSVUser.get_username`: `self.email.split("@")[0]` then
`.replace(".", "-")`.  The `[0]` subscript never fails because Python
`split` always returns at least one element. -/
def get_username (email : String) : String :=
  String.mk ((((pySplit '@' email.data).headD []).map
    (fun c => if c = '.' then '-' else c)))

/-- `CSVUser.get_room`: `index = room.index(" ")`, building name is
`room[:index]`, room name is `room[index + 1 :]`, then
`Building.objects.get(name=...)` and `Room.objects.get(building=..., name=...)`. -/
def get_room (db : DB) (room : String) : Except Err Room := do
  let index ← pyIndex ' ' room.data
  let building_name := String.mk (room.data.take index)
  let name := String.mk (room.data.drop (index + 1))
  let building ← getUnique db.buildings (fun b => b.name == building_name)
  getUnique db.rooms (fun r => r.building == building.id && r.name == name)

/-- The parsed-row record built by `CSVUser.__init__`: the constructor
stores the four columns, derives `username` from the email and resolves
`room` through the database. -/
structure CSVUser where
  first_name : String
  last_name : String
  email : String
  username : String
  room : Room
deriving Repr, DecidableEq

/-- `CSVUser(row[0], row[1], row[2], row[3])`: subscripts are evaluated
first (so a short row raises `IndexError`), then `__init__` derives the
username and resolves the room. -/
def parseRow (db : DB) (row : List String) : Except Err CSVUser := do
  let last_name ← pyNth row 0
  let first_name ← pyNth row 1
  let email ← pyNth row 2
  let room_string ← pyNth row 3
  let room ← get_room db room_string
  .ok { first_name := first_name, last_name := last_name, email := email,
        username := get_username email, room := room }

/-- `read_file`: parse every CSV row in order into a `CSVUser`; the first
failing row aborts.  The CSV file itself is modelled as the list of rows
(each a list of column strings) produced by `csv.reader`. -/
def read_file (db : DB) : List (List String) → Except Err (List CSVUser)
  | [] => .ok []
  | row :: rest => do
    let u ← parseRow db row
    let us ← read_file db rest
    .ok (u :: us)

/-- The error message `check_constraints` raises, listing the pseudos of
the already-existing accounts whose pseudo is among the usernames. -/
def constraintMsg (taken : List Adherent) : String :=
  "The following usernames are not unique : " ++
    String.intercalate ", " (taken.map (fun a => a.pseudo))

/-- `check_constraints`: `Adherent.objects.filter(pseudo__in=usernames)`;
raise when the query is nonempty, listing the taken pseudos. -/
def check_constraints (db : DB) (usernames : List String) : Except Err Unit :=
  match db.adherents.filter (fun a => usernames.contains a.pseudo) with
  | [] => .ok ()
  | q => .error (.exception (constraintMsg q))

/-- `force_move`: `Adherent.objects.filter(room=room)`; when nonempty, the
first result has its `room` set to `None` and is saved (a by-primary-key
row update). -/
def force_move (db : DB) (room : Room) : DB :=
  match db.adherents.filter (fun a => a.room == some room.id) with
  | [] => db
  | prev :: _ =>
    { db with adherents := db.adherents.map (fun a =>
        if a.id == prev.id then { a with room := none } else a) }

/-- Observable actions of the transaction body, recorded in order:
database row creations, the room eviction update, and the password-reset
HTTP POST (with the form data it carries). -/
inductive Event where
  | evict : Nat → Event
  | createAdherent : Adherent → Event
  | resetPost : String → String → Event
  | createFacture : Facture → Event
  | createVente : Vente → Event
deriving Repr, DecidableEq

/-- `force_move` together with the update event it performs (none when the
room has no occupant). -/
def force_move_ev (db : DB) (room : Room) : DB × List Event :=
  match db.adherents.filter (fun a => a.room == some room.id) with
  | [] => (db, [])
  | _ :: _ => (force_move db room, [.evict room.id])

/-- The account-creation loop of `transaction`: for each user, first
`force_move(user.room)`, then `Adherent.objects.create(...)` with the
fixed school, comment, state and email state.  Never fails. -/
def createAccounts (school : Nat) (comment : String) (db : DB) :
    List CSVUser → DB × List Event
  | [] => (db, [])
  | u :: rest =>
    let moved := force_move_ev db u.room
    let a : Adherent :=
      { id := moved.1.nextId, name := u.first_name, surname := u.last_name,
        pseudo := u.username, email := u.email, school := school,
        comment := comment, state := STATE_ACTIVE,
        email_state := EMAIL_STATE_VERIFIED, room := some u.room.id }
    let db2 : DB := { moved.1 with
      adherents := moved.1.adherents ++ [a],
      nextId := moved.1.nextId + 1 }
    let next := createAccounts school comment db2 rest
    (next.1, moved.2 ++ [.createAdherent a] ++ next.2)

/-- The password-reset loop of `transaction`: one
`Client().post("/users/reset_password/", ...)` per user carrying the
user's pseudo and email; the response (modelled by the `response` oracle)
is bound to no name and discarded. -/
def resetPasswords (response : String → String → Nat) :
    List CSVUser → List Event
  | [] => []
  | u :: rest =>
    let _ := response u.username u.email
    .resetPost u.username u.email :: resetPasswords response rest

/-- The inner article loop of the subscription block: for each
`(id, quantity)` pair of ARTICLES, look the article up by primary key and
build a `Vente` carrying the article's name, price and durations, the
pair's quantity, and the invoice reference. -/
def mkVentes (db : DB) (factureId : Nat) :
    List (Nat × Nat) → Except Err (List Vente)
  | [] => .ok []
  | art :: rest => do
    let article ← getUnique db.articles (fun a => a.id == art.1)
    let v : Vente :=
      { facture := factureId, name := article.name, prix := article.prix,
        duration_connection := article.duration_connection,
        duration_days_connection := article.duration_days_connection,
        duration_membership := article.duration_membership,
        duration_days_membership := article.duration_days_membership,
        number := art.2 }
    let vs ← mkVentes db factureId rest
    .ok (v :: vs)

/-- The subscription loop of `transaction`: per user, look the account up
by pseudo, create a `Facture`, build one `Vente` per ARTICLES entry, save
the ventes, then set `valid` and `control` on the invoice and save it.
The source also accumulates an unused `total_price`, not modelled.  Events
collected so far survive an error (the rollback is applied outside). -/
def addInvoices (p : Params) (payment : Nat) (db : DB) :
    List CSVUser → Except Err DB × List Event
  | [] => (.ok db, [])
  | u :: rest =>
    match getUnique db.adherents (fun a => a.pseudo == u.username) with
    | .error e => (.error e, [])
    | .ok user_object =>
      let f : Facture := { id := db.nextId, user := user_object.id,
                           paiement := payment, valid := false,
                           control := false }
      let db1 : DB := { db with
        factures := db.factures ++ [f],
        nextId := db.nextId + 1 }
      match mkVentes db1 f.id p.ARTICLES with
      | .error e => (.error e, [.createFacture f])
      | .ok vs =>
        let db2 : DB := { db1 with
          ventes := db1.ventes ++ vs,
          factures := db1.factures.map (fun x =>
            if x.id == f.id then { x with valid := true, control := true }
            else x) }
        let next := addInvoices p payment db2 rest
        (next.1, [.createFacture f] ++ vs.map .createVente ++ next.2)

/-- The body of `transaction` before the atomic wrapper: school and payment
lookups, `read_file`, `check_constraints`, the account loop, the
password-reset loop, and (when ARTICLES is nonempty) the subscription
loop.  Returns the outcome together with the full event trace; HTTP posts
already fired stay in the trace even when a later step fails. -/
def importBody (p : Params) (response : String → String → Nat)
    (rows : List (List String)) (db : DB) : Except Err DB × List Event :=
  match getUnique db.schools (fun s => s == p.SCHOOL_ID) with
  | .error e => (.error e, [])
  | .ok school =>
  match getUnique db.paiements (fun s => s == p.PAYMENT_METHOD) with
  | .error e => (.error e, [])
  | .ok payment =>
  match read_file db rows with
  | .error e => (.error e, [])
  | .ok users =>
  match check_constraints db (users.map (fun u => u.username)) with
  | .error e => (.error e, [])
  | .ok _ =>
    let acc := createAccounts school p.COMMENT db users
    let resets := resetPasswords response users
    if p.ARTICLES.isEmpty then (.ok acc.1, acc.2 ++ resets)
    else
      let inv := addInvoices p payment acc.1 users
      (inv.1, acc.2 ++ resets ++ inv.2)

/-- `@transaction.atomic` applied to the body: on any error every database
write is rolled back and the state is unchanged; the event trace (which
includes the non-transactional HTTP posts) is kept. -/
def run_transaction (p : Params) (response : String → String → Nat)
    (rows : List (List String)) (db : DB) : DB × List Event :=
  let res := importBody p response rows db
  match res.1 with
  | .ok db2 => (db2, res.2)
  | .error _ => (db, res.2)

/-! ### Spec-side reformulations and event classifiers -/

/-- Events of the account-creation phase (row creation and the eviction
update). -/
def isAccountEvent : Event → Bool
  | .evict _ => true
  | .createAdherent _ => true
  | _ => false

/-- Events of the password-reset phase. -/
def isResetEvent : Event → Bool
  | .resetPost _ _ => true
  | _ => false

/-- Events of the subscription phase (invoice and line-item creation). -/
def isInvoiceEvent : Event → Bool
  | .createFacture _ => true
  | .createVente _ => true
  | _ => false

/-- Spec-side row parser: take exactly the first four columns, in order,
as last name, first name, email and room string, ignoring any further
columns; fewer than four columns is a parse failure. -/
def specParseRow (db : DB) (row : List String) : Except Err CSVUser :=
  match row with
  | last :: first :: email :: room :: _ => do
    let r ← get_room db room
    .ok { first_name := first, last_name := last, email := email,
          username := get_username email, room := r }
  | _ => .error .indexError

/-- Spec-side file reader built on `specParseRow`. -/
def specReadFile (db : DB) : List (List String) → Except Err (List CSVUser)
  | [] => .ok []
  | row :: rest => do
    let u ← specParseRow db row
    let us ← specReadFile db rest
    .ok (u :: us)

/-- Spec-side eviction: set the `room` field of the first occupant of the
given room to `none`, leave every other adherent and every other field
untouched. -/
def evictFirst (rid : Nat) : List Adherent → List Adherent
  | [] => []
  | a :: rest =>
    if a.room == some rid then { a with room := none } :: rest
    else a :: evictFirst rid rest

/-! ### Concrete fixtures used by the witness theorems -/

/-- The empty database. -/
def emptyDB : DB :=
  { adherents := [], schools := [], paiements := [], buildings := [],
    rooms := [], articles := [], factures := [], ventes := [], nextId := 0 }

/-- A small database: one school, one payment method, one building with
one room, one catalog article, no accounts. -/
def db0 : DB :=
  { adherents := [], schools := [1], paiements := [1],
    buildings := [{ id := 5, name := "B" }],
    rooms := [{ id := 7, building := 5, name := "101-2" }],
    articles := [{ id := 1, name := "Cotisation", prix := 10,
                   duration_connection := 0, duration_days_connection := 0,
                   duration_membership := 1, duration_days_membership := 0 }],
    factures := [], ventes := [], nextId := 100 }

/-- An adherent already holding the pseudo `jane-d` and occupying room 7. -/
def jane0 : Adherent :=
  { id := 0, name := "Old", surname := "Holder", pseudo := "jane-d",
    email := "old@x.fr", school := 1, comment := "", state := 0,
    email_state := 0, room := some 7 }

/-- `db0` with `jane0` already present. -/
def db1 : DB := { db0 with adherents := [jane0] }

/-- Two well-formed CSV rows (the second with a fifth, ignored column). -/
def rows0 : List (List String) :=
  [["Doe", "Jane", "jane.d@example.org", "B 101-2"],
   ["Poe", "Allan", "a.p@x.fr", "B 101-2", "extra"]]

/-- A constant HTTP oracle. -/
def ok200 : String → String → Nat := fun _ _ => 200

/-- The single room of `db0`. -/
def room7 : Room := { id := 7, building := 5, name := "101-2" }

/-- The parsed form of the first row of `rows0`. -/
def u1 : CSVUser :=
  { first_name := "Jane", last_name := "Doe", email := "jane.d@example.org",
    username := "jane-d", room := room7 }

/-- The parsed form of the second row of `rows0`. -/
def u2 : CSVUser :=
  { first_name := "Allan", last_name := "Poe", email := "a.p@x.fr",
    username := "a-p", room := room7 }

/-- The parsed contents of `rows0`. -/
def users0 : List CSVUser := [u1, u2]

/-- The script parameters with an empty ARTICLES list. -/
def paramsNoArticles : Params :=
  { SCHOOL_ID := 1, ARTICLES := [], PAYMENT_METHOD := 1,
    COMMENT := "Example" }

/-- The account row created for the first user of `rows0` on `db0`. -/
def adhJaneEv : Adherent :=
  { id := 100, name := "Jane", surname := "Doe", pseudo := "jane-d",
    email := "jane.d@example.org", school := 1, comment := "Example",
    state := 0, email_state := 0, room := some 7 }

/-- The account row created for the second user of `rows0` on `db0`. -/
def adhAllanEv : Adherent :=
  { id := 101, name := "Allan", surname := "Poe", pseudo := "a-p",
    email := "a.p@x.fr", school := 1, comment := "Example",
    state := 0, email_state := 0, room := some 7 }

/-- The final state of a successful import of `rows0` into `db0` with no
articles: two accounts (the first evicted from the room by the second),
no invoice, no line item. -/
def dbE : DB :=
  { db0 with
    adherents := [{ adhJaneEv with room := none }, adhAllanEv],
    nextId := 102 }

/-! ### Helper lemmas -/

theorem pySplit_ne_nil (sep : Char) (l : List Char) : pySplit sep l ≠ [] := by
  cases l with
  | nil => simp [pySplit]
  | cons c cs =>
    simp only [pySplit]
    split
    · simp
    · cases h : pySplit sep cs <;> simp

theorem pySplit_headD (sep : Char) (l : List Char) :
    (pySplit sep l).headD [] = l.takeWhile (fun c => c != sep) := by
  induction l with
  | nil => simp [pySplit]
  | cons c cs ih =>
    simp only [pySplit, List.takeWhile]
    by_cases hc : c = sep
    · simp [hc]
    · have hb : (c != sep) = true := by simp [hc]
      rw [if_neg hc, hb]
      cases h : pySplit sep cs with
      | nil => exact absurd h (pySplit_ne_nil sep cs)
      | cons h0 t =>
        simp only [List.headD]
        rw [← ih]
        simp [h]

theorem get_username_eq (email : String) :
    get_username email =
      String.mk ((email.data.takeWhile (fun c => c != '@')).map
        (fun c => if c = '.' then '-' else c)) := by
  unfold get_username
  rw [pySplit_headD]

theorem pyIndex_not_mem (sep : Char) (l : List Char) (h : sep ∉ l) :
    pyIndex sep l = .error .valueError := by
  induction l with
  | nil => simp [pyIndex]
  | cons c cs ih =>
    simp only [List.mem_cons, not_or] at h
    simp only [pyIndex]
    rw [if_neg (fun hc => h.1 hc.symm), ih h.2]
    rfl

theorem pyIndex_mem (sep : Char) (l : List Char) (h : sep ∈ l) :
    ∃ n, pyIndex sep l = .ok n := by
  induction l with
  | nil => cases h
  | cons c cs ih =>
    by_cases hc : c = sep
    · exact ⟨0, by simp [pyIndex, hc]⟩
    · have hcs : sep ∈ cs := by
        cases h with
        | head => exact absurd rfl hc
        | tail _ hm => exact hm
      obtain ⟨n, hn⟩ := ih hcs
      exact ⟨n + 1, by simp [pyIndex, hc, hn, Except.map]⟩

theorem pyIndex_take_drop (sep : Char) (l : List Char) (n : Nat)
    (h : pyIndex sep l = .ok n) :
    l.take n = l.takeWhile (fun c => c != sep) ∧
    l.drop (n + 1) = (l.dropWhile (fun c => c != sep)).tail := by
  induction l generalizing n with
  | nil => simp [pyIndex] at h
  | cons c cs ih =>
    by_cases hc : c = sep
    · simp only [pyIndex, if_pos hc] at h
      obtain rfl : n = 0 := by injection h with h; omega
      subst hc
      simp [List.takeWhile, List.dropWhile]
    · simp only [pyIndex, if_neg hc] at h
      cases hp : pyIndex sep cs with
      | error e => rw [hp] at h; simp [Except.map] at h
      | ok m =>
        rw [hp] at h
        simp only [Except.map] at h
        obtain rfl : n = m + 1 := by injection h with h; omega
        obtain ⟨h1, h2⟩ := ih m hp
        have hb : (c != sep) = true := by simp [hc]
        constructor
        · simp only [List.take, List.takeWhile, hb, cond_true]
          rw [h1]
        · simp only [List.drop, List.dropWhile, hb, cond_true]
          exact h2

theorem exc_bind_ok {ε α β : Type} (a : α) (f : α → Except ε β) :
    (Except.ok a >>= f) = f a := rfl

theorem exc_bind_err {ε α β : Type} (e : ε) (f : α → Except ε β) :
    ((Except.error e : Except ε α) >>= f) = Except.error e := rfl

theorem getUnique_ok {α : Type} (l : List α) (p : α → Bool) (x : α)
    (h : getUnique l p = .ok x) : x ∈ l ∧ p x = true := by
  unfold getUnique at h
  cases hf : l.filter p with
  | nil => rw [hf] at h; cases h
  | cons y t =>
    cases t with
    | nil =>
      rw [hf] at h
      injection h with h
      have hy : y ∈ l.filter p := by rw [hf]; exact List.mem_singleton_self y
      rw [← h]
      exact ⟨List.mem_of_mem_filter hy, List.of_mem_filter hy⟩
    | cons z t2 => rw [hf] at h; cases h

theorem parseRow_eq_spec (db : DB) (row : List String) :
    parseRow db row = specParseRow db row := by
  rcases row with _ | ⟨a, _ | ⟨b, _ | ⟨c, _ | ⟨d, t⟩⟩⟩⟩ <;> rfl

theorem specParseRow_username (db : DB) (row : List String) (u : CSVUser)
    (h : specParseRow db row = .ok u) : u.username = get_username u.email := by
  rcases row with _ | ⟨a, _ | ⟨b, _ | ⟨c, _ | ⟨d, t⟩⟩⟩⟩ <;>
    try exact Except.noConfusion h
  simp only [specParseRow] at h
  cases hg : get_room db d with
  | error e => rw [hg, exc_bind_err] at h; exact Except.noConfusion h
  | ok r =>
    rw [hg, exc_bind_ok] at h
    injection h with h
    rw [← h]

/-! ### Claim theorems -/

/-- C4: for every parsed CSV row, the derived username equals the local
part of the email address (the substring before the first `@`, or the
whole string when no `@` is present) with every `.` replaced by `-`. -/
theorem username_from_email (db : DB) (rows : List (List String))
    (users : List CSVUser) (h : read_file db rows = .ok users) :
    ∀ u ∈ users, u.username =
      String.mk ((u.email.data.takeWhile (fun c => c != '@')).map
        (fun c => if c = '.' then '-' else c)) := by
  induction rows generalizing users with
  | nil =>
    simp only [read_file] at h
    injection h with h
    subst h
    intro u hu
    cases hu
  | cons row rest ih =>
    simp only [read_file] at h
    cases hp : parseRow db row with
    | error e => rw [hp] at h; cases h
    | ok u0 =>
      rw [hp, exc_bind_ok] at h
      cases hr : read_file db rest with
      | error e => rw [hr, exc_bind_err] at h; cases h
      | ok us0 =>
        rw [hr, exc_bind_ok] at h
        injection h with h
        intro u hu
        rw [← h] at hu
        cases hu with
        | head =>
          rw [parseRow_eq_spec] at hp
          rw [specParseRow_username db row u0 hp]
          exact get_username_eq _
        | tail _ hm => exact ih us0 hr u hm

theorem read_file_eq_spec (db : DB) (rows : List (List String)) :
    read_file db rows = specReadFile db rows := by
  induction rows with
  | nil => rfl
  | cons row rest ih =>
    simp only [read_file, specReadFile, parseRow_eq_spec, ih]

theorem parseRow_take4 (db : DB) (row : List String) :
    parseRow db row = parseRow db (row.take 4) := by
  rcases row with _ | ⟨a, _ | ⟨b, _ | ⟨c, _ | ⟨d, t⟩⟩⟩⟩ <;> rfl

theorem specParseRow_short (db : DB) (row : List String)
    (h : row.length < 4) : specParseRow db row = .error .indexError := by
  rcases row with _ | ⟨a, _ | ⟨b, _ | ⟨c, _ | ⟨d, t⟩⟩⟩⟩ <;>
    first
      | rfl
      | (simp only [List.length_cons] at h; omega)

theorem read_file_short_err (db : DB) (rows : List (List String)) :
    ∀ row ∈ rows, row.length < 4 → ∃ e, read_file db rows = .error e := by
  induction rows with
  | nil => intro row hr; cases hr
  | cons r rest ih =>
    intro row hrow hlen
    cases hrow with
    | head =>
      refine ⟨.indexError, ?_⟩
      simp only [read_file]
      rw [parseRow_eq_spec, specParseRow_short db _ hlen, exc_bind_err]
    | tail _ hm =>
      obtain ⟨e, he⟩ := ih row hm hlen
      cases hp : parseRow db r with
      | error e0 =>
        refine ⟨e0, ?_⟩
        simp only [read_file]
        rw [hp, exc_bind_err]
      | ok u =>
        refine ⟨e, ?_⟩
        simp only [read_file]
        rw [hp, exc_bind_ok, he, exc_bind_err]

/-- C5: a room string with a space resolves to the building named by the
part before the first space and the room named by everything after that
first space; a room string with no space raises `ValueError`. -/
theorem room_resolution (db : DB) (room : String) :
    (' ' ∈ room.data →
      get_room db room =
        (getUnique db.buildings (fun b =>
            b.name == String.mk (room.data.takeWhile (fun c => c != ' ')))).bind
          (fun building => getUnique db.rooms (fun r =>
            r.building == building.id &&
            r.name ==
              String.mk ((room.data.dropWhile (fun c => c != ' ')).tail))))
    ∧ (' ' ∉ room.data → get_room db room = .error .valueError) := by
  constructor
  · intro hm
    obtain ⟨n, hn⟩ := pyIndex_mem ' ' room.data hm
    obtain ⟨h1, h2⟩ := pyIndex_take_drop ' ' room.data n hn
    unfold get_room
    rw [hn, exc_bind_ok, h1, h2]
    rfl
  · intro hnm
    unfold get_room
    rw [pyIndex_not_mem ' ' room.data hnm, exc_bind_err]

/-- C6: `read_file` parses each row by taking exactly the first four
columns, in order, as last name, first name, email and room string
(`specParseRow`); columns beyond the fourth are ignored; a row with fewer
than four columns makes parsing fail. -/
theorem read_file_columns (db : DB) (rows : List (List String)) :
    read_file db rows = specReadFile db rows
  ∧ read_file db rows = read_file db (rows.map (fun r => r.take 4))
  ∧ (∀ row ∈ rows, row.length < 4 → ∃ e, read_file db rows = .error e) := by
  refine ⟨read_file_eq_spec db rows, ?_, read_file_short_err db rows⟩
  induction rows with
  | nil => rfl
  | cons row rest ih =>
    simp only [read_file, List.map_cons]
    rw [← parseRow_take4, ← ih]

theorem evictFirst_of_filter_nil (rid : Nat) (l : List Adherent)
    (h : l.filter (fun a => a.room == some rid) = []) :
    evictFirst rid l = l := by
  induction l with
  | nil => rfl
  | cons a rest ih =>
    rw [List.filter_cons] at h
    have ha : ¬((a.room == some rid) = true) := by
      intro hp
      rw [if_pos hp] at h
      cases h
    rw [if_neg ha] at h
    simp only [evictFirst, if_neg ha, ih h]

theorem map_noop_of_id_notin (l : List Adherent) (pid : Nat)
    (h : ∀ a ∈ l, a.id ≠ pid) :
    l.map (fun a => if a.id == pid then { a with room := none } else a)
      = l := by
  induction l with
  | nil => rfl
  | cons a rest ih =>
    have ha : ¬((a.id == pid) = true) := by
      simp only [beq_iff_eq]
      exact h a (List.mem_cons_self a rest)
    simp only [List.map_cons, if_neg ha]
    rw [ih (fun x hx => h x (List.mem_cons_of_mem a hx))]

theorem evict_aux_cons (rid : Nat) (l : List Adherent) (prev : Adherent)
    (t : List Adherent) (hnd : (l.map (fun a => a.id)).Nodup)
    (hf : l.filter (fun a => a.room == some rid) = prev :: t) :
    l.map (fun a => if a.id == prev.id then { a with room := none } else a)
      = evictFirst rid l := by
  induction l generalizing t with
  | nil => cases hf
  | cons a rest ih =>
    rw [List.map_cons, List.nodup_cons] at hnd
    obtain ⟨hnotin, hnd2⟩ := hnd
    rw [List.filter_cons] at hf
    by_cases ha : (a.room == some rid) = true
    · rw [if_pos ha] at hf
      injection hf with hf1 hf2
      subst hf1
      simp only [List.map_cons, beq_self_eq_true, if_true]
      rw [map_noop_of_id_notin rest a.id
        (fun x hx he => hnotin (he ▸ List.mem_map_of_mem (fun y => y.id) hx))]
      simp only [evictFirst, if_pos ha]
    · rw [if_neg ha] at hf
      have hprev : prev ∈ rest := by
        have : prev ∈ rest.filter (fun x => x.room == some rid) := by
          rw [hf]; exact List.mem_cons_self prev t
        exact List.mem_of_mem_filter this
      have hne : ¬((a.id == prev.id) = true) := by
        simp only [beq_iff_eq]
        intro he
        exact hnotin (he ▸ List.mem_map_of_mem (fun y => y.id) hprev)
      simp only [List.map_cons, if_neg hne]
      rw [ih t hnd2 hf]
      simp only [evictFirst, if_neg ha]

/-- C8: `force_move` sets the `room` field of the first occupant of the
given room to `None` and leaves that occupant's other fields and every
other adherent (and every other table) unchanged; when the room has no
occupant nothing changes.  Primary keys are assumed distinct, as the
database guarantees. -/
theorem force_move_evicts_first (db : DB) (room : Room)
    (h : (db.adherents.map (fun a => a.id)).Nodup) :
    force_move db room = { db with adherents := evictFirst room.id db.adherents }
    ∧ (db.adherents.filter (fun a => a.room == some room.id) = [] →
        force_move db room = db) := by
  constructor
  · unfold force_move
    split
    next hf => rw [evictFirst_of_filter_nil room.id db.adherents hf]
    next prev t hf => rw [evict_aux_cons room.id db.adherents prev t h hf]
  · intro hf
    unfold force_move
    rw [hf]

/-- C2: `check_constraints` succeeds exactly when no given username is
already the pseudo of an existing adherent; when at least one is taken it
raises an exception whose message lists the taken pseudos.  (It reads the
database and returns no state, so it modifies nothing.) -/
theorem check_constraints_spec (db : DB) (names : List String) :
    (check_constraints db names = .ok () ↔
      ∀ a ∈ db.adherents, a.pseudo ∉ names)
  ∧ ((∃ a ∈ db.adherents, a.pseudo ∈ names) →
      check_constraints db names =
        .error (.exception (constraintMsg
          (db.adherents.filter (fun a => names.contains a.pseudo))))) := by
  cases hf : db.adherents.filter (fun a => names.contains a.pseudo) with
  | nil =>
    have hc : check_constraints db names = .ok () := by
      unfold check_constraints; rw [hf]
    have hall : ∀ a ∈ db.adherents, a.pseudo ∉ names := by
      intro a ha hmem
      exact (List.filter_eq_nil_iff.mp hf) a ha (by simpa using hmem)
    constructor
    · exact ⟨fun _ => hall, fun _ => hc⟩
    · rintro ⟨a, ha, hmem⟩
      exact absurd hmem (hall a ha)
  | cons q t =>
    have hc : check_constraints db names =
        .error (.exception (constraintMsg (q :: t))) := by
      unfold check_constraints; rw [hf]
    constructor
    · constructor
      · intro hok
        rw [hc] at hok
        cases hok
      · intro hall
        have hq : q ∈ db.adherents.filter (fun a => names.contains a.pseudo) := by
          rw [hf]; exact List.mem_cons_self q t
        have := List.of_mem_filter hq
        exact absurd (by simpa using this)
          (hall q (List.mem_of_mem_filter hq))
    · intro _
      rw [hc]

theorem force_move_shape (db : DB) (room : Room) :
    ∃ l, force_move db room = { db with adherents := l } := by
  unfold force_move
  split
  · exact ⟨db.adherents, rfl⟩
  · exact ⟨_, rfl⟩

theorem force_move_ev_shape (db : DB) (room : Room) :
    ∃ l, (force_move_ev db room).1 = { db with adherents := l } := by
  unfold force_move_ev
  split
  · exact ⟨db.adherents, rfl⟩
  · simpa using force_move_shape db room

theorem createAccounts_factures (s : Nat) (c : String) (db : DB)
    (us : List CSVUser) :
    (createAccounts s c db us).1.factures = db.factures := by
  induction us generalizing db with
  | nil => rfl
  | cons u rest ih =>
    simp only [createAccounts]
    rw [ih]
    show (force_move_ev db u.room).1.factures = db.factures
    obtain ⟨l, hl⟩ := force_move_ev_shape db u.room
    rw [hl]

theorem createAccounts_ventes (s : Nat) (c : String) (db : DB)
    (us : List CSVUser) :
    (createAccounts s c db us).1.ventes = db.ventes := by
  induction us generalizing db with
  | nil => rfl
  | cons u rest ih =>
    simp only [createAccounts]
    rw [ih]
    show (force_move_ev db u.room).1.ventes = db.ventes
    obtain ⟨l, hl⟩ := force_move_ev_shape db u.room
    rw [hl]

theorem force_move_ev_events (db : DB) (room : Room) :
    ∀ ev ∈ (force_move_ev db room).2, ev = Event.evict room.id := by
  unfold force_move_ev
  split
  · intro ev hev; cases hev
  · intro ev hev
    simp only [List.mem_singleton] at hev
    exact hev

theorem createAccounts_events_kind (s : Nat) (c : String) (db : DB)
    (us : List CSVUser) :
    ∀ ev ∈ (createAccounts s c db us).2, isAccountEvent ev = true := by
  induction us generalizing db with
  | nil => intro ev hev; cases hev
  | cons u rest ih =>
    intro ev hev
    simp only [createAccounts, List.mem_append] at hev
    rcases hev with (hev | hev) | hev
    · rw [force_move_ev_events db u.room ev hev]; rfl
    · simp only [List.mem_singleton] at hev
      rw [hev]; rfl
    · exact ih _ ev hev

theorem createAccounts_created_fields (s : Nat) (c : String) (db : DB)
    (us : List CSVUser) (a : Adherent)
    (h : Event.createAdherent a ∈ (createAccounts s c db us).2) :
    a.state = STATE_ACTIVE ∧ a.email_state = EMAIL_STATE_VERIFIED ∧
    a.school = s ∧ a.comment = c := by
  induction us generalizing db with
  | nil => cases h
  | cons u rest ih =>
    simp only [createAccounts, List.mem_append] at h
    rcases h with (hev | hev) | hev
    · have := force_move_ev_events db u.room _ hev
      cases this
    · simp only [List.mem_singleton] at hev
      injection hev with hev
      rw [hev]
      exact ⟨rfl, rfl, rfl, rfl⟩
    · exact ih _ hev

theorem resetPasswords_eq (r : String → String → Nat) (us : List CSVUser) :
    resetPasswords r us =
      us.map (fun u => Event.resetPost u.username u.email) := by
  induction us with
  | nil => rfl
  | cons u rest ih => simp only [resetPasswords, List.map_cons, ih]

theorem mkVentes_length (db : DB) (fid : Nat) (arts : List (Nat × Nat))
    (vs : List Vente) (h : mkVentes db fid arts = .ok vs) :
    vs.length = arts.length := by
  induction arts generalizing vs with
  | nil =>
    injection h with h
    rw [← h]
    rfl
  | cons art rest ih =>
    simp only [mkVentes] at h
    cases hg : getUnique db.articles (fun a => a.id == art.1) with
    | error e => rw [hg, exc_bind_err] at h; cases h
    | ok article =>
      rw [hg, exc_bind_ok] at h
      cases hv : mkVentes db fid rest with
      | error e => rw [hv, exc_bind_err] at h; cases h
      | ok vs2 =>
        rw [hv, exc_bind_ok] at h
        injection h with h
        rw [← h, List.length_cons, ih vs2 hv, List.length_cons]

theorem addInvoices_events_kind (p : Params) (pay : Nat) (db : DB)
    (us : List CSVUser) :
    ∀ ev ∈ (addInvoices p pay db us).2, isInvoiceEvent ev = true := by
  induction us generalizing db with
  | nil => intro ev hev; cases hev
  | cons u rest ih =>
    intro ev hev
    cases hg : getUnique db.adherents (fun a => a.pseudo == u.username) with
    | error e =>
      simp only [addInvoices, hg] at hev
      cases hev
    | ok u0 =>
      simp only [addInvoices, hg] at hev
      split at hev
      · simp only [List.mem_singleton] at hev
        rw [hev]; rfl
      · simp only [List.cons_append, List.mem_cons, List.mem_append,
          List.not_mem_nil, false_or, or_assoc] at hev
        rcases hev with hev | hev | hev
        · rw [hev]; rfl
        · obtain ⟨v, _, hv⟩ := List.mem_map.mp hev
          rw [← hv]; rfl
        · exact ih _ ev hev

theorem addInvoices_ok_counts (p : Params) (pay : Nat) (db db2 : DB)
    (us : List CSVUser) (h : (addInvoices p pay db us).1 = .ok db2) :
    db2.factures.length = db.factures.length + us.length ∧
    db2.ventes.length = db.ventes.length + us.length * p.ARTICLES.length := by
  induction us generalizing db with
  | nil =>
    injection h with h
    rw [← h]
    exact ⟨rfl, by simp⟩
  | cons u rest ih =>
    cases hg : getUnique db.adherents (fun a => a.pseudo == u.username) with
    | error e =>
      simp only [addInvoices, hg] at h
      cases h
    | ok u0 =>
      simp only [addInvoices, hg] at h
      split at h
      · cases h
      next vs hv =>
        obtain ⟨h1, h2⟩ := ih _ h
        have hvl := mkVentes_length _ _ _ _ hv
        simp [List.length_append] at h1 h2
        constructor
        · rw [h1]
          simp only [List.length_cons]
          omega
        · rw [h2, hvl]
          simp only [List.length_cons]
          ring

theorem run_transaction_snd (p : Params) (r : String → String → Nat)
    (rows : List (List String)) (db : DB) :
    (run_transaction p r rows db).2 = (importBody p r rows db).2 := by
  simp only [run_transaction]
  cases h : (importBody p r rows db).1 <;> rfl

theorem run_transaction_of_err (p : Params) (r : String → String → Nat)
    (rows : List (List String)) (db : DB) (e : Err)
    (h : (importBody p r rows db).1 = .error e) :
    (run_transaction p r rows db).1 = db := by
  simp only [run_transaction]
  rw [h]

theorem run_transaction_of_ok (p : Params) (r : String → String → Nat)
    (rows : List (List String)) (db db2 : DB)
    (h : (importBody p r rows db).1 = .ok db2) :
    (run_transaction p r rows db).1 = db2 := by
  simp only [run_transaction]
  rw [h]

theorem importBody_ok_eq (p : Params) (r : String → String → Nat)
    (rows : List (List String)) (db : DB) (s pay : Nat)
    (users : List CSVUser)
    (hs : getUnique db.schools (fun x => x == p.SCHOOL_ID) = .ok s)
    (hp : getUnique db.paiements (fun x => x == p.PAYMENT_METHOD) = .ok pay)
    (hr : read_file db rows = .ok users)
    (hc : check_constraints db (users.map (fun u => u.username)) = .ok ()) :
    importBody p r rows db =
      (if p.ARTICLES.isEmpty then
        (.ok (createAccounts s p.COMMENT db users).1,
         (createAccounts s p.COMMENT db users).2 ++ resetPasswords r users)
      else
        ((addInvoices p pay (createAccounts s p.COMMENT db users).1 users).1,
         (createAccounts s p.COMMENT db users).2 ++ resetPasswords r users ++
           (addInvoices p pay (createAccounts s p.COMMENT db users).1 users).2)) := by
  unfold importBody
  rw [hs, hp, hr]
  simp only [hc]

theorem importBody_err_read (p : Params) (r : String → String → Nat)
    (rows : List (List String)) (db : DB) (e : Err)
    (hr : read_file db rows = .error e) :
    importBody p r rows db = (.error e, []) ∨
      ∃ e2, importBody p r rows db = (.error e2, []) := by
  unfold importBody
  cases hs : getUnique db.schools (fun x => x == p.SCHOOL_ID) with
  | error e2 => exact .inr ⟨e2, rfl⟩
  | ok s =>
    cases hp : getUnique db.paiements (fun x => x == p.PAYMENT_METHOD) with
    | error e2 => exact .inr ⟨e2, rfl⟩
    | ok pay =>
      rw [hr]
      exact .inl rfl

theorem importBody_err_check (p : Params) (r : String → String → Nat)
    (rows : List (List String)) (db : DB) (users : List CSVUser) (e : Err)
    (hr : read_file db rows = .ok users)
    (hc : check_constraints db (users.map (fun u => u.username)) = .error e) :
    ∃ e2, importBody p r rows db = (.error e2, []) := by
  unfold importBody
  cases hs : getUnique db.schools (fun x => x == p.SCHOOL_ID) with
  | error e2 => exact ⟨e2, rfl⟩
  | ok s =>
    cases hp : getUnique db.paiements (fun x => x == p.PAYMENT_METHOD) with
    | error e2 => exact ⟨e2, rfl⟩
    | ok pay =>
      rw [hr]
      simp only [hc]
      exact ⟨e, rfl⟩

theorem importBody_err_school (p : Params) (r : String → String → Nat)
    (rows : List (List String)) (db : DB) (e : Err)
    (hs : getUnique db.schools (fun x => x == p.SCHOOL_ID) = .error e) :
    importBody p r rows db = (.error e, []) := by
  unfold importBody
  rw [hs]

theorem importBody_err_paiement (p : Params) (r : String → String → Nat)
    (rows : List (List String)) (db : DB) (s : Nat) (e : Err)
    (hs : getUnique db.schools (fun x => x == p.SCHOOL_ID) = .ok s)
    (hp : getUnique db.paiements (fun x => x == p.PAYMENT_METHOD) = .error e) :
    importBody p r rows db = (.error e, []) := by
  unfold importBody
  rw [hs, hp]

theorem importBody_err_readfile (p : Params) (r : String → String → Nat)
    (rows : List (List String)) (db : DB) (s pay : Nat) (e : Err)
    (hs : getUnique db.schools (fun x => x == p.SCHOOL_ID) = .ok s)
    (hp : getUnique db.paiements (fun x => x == p.PAYMENT_METHOD) = .ok pay)
    (hr : read_file db rows = .error e) :
    importBody p r rows db = (.error e, []) := by
  unfold importBody
  rw [hs, hp, hr]

theorem importBody_err_check2 (p : Params) (r : String → String → Nat)
    (rows : List (List String)) (db : DB) (s pay : Nat)
    (users : List CSVUser) (e : Err)
    (hs : getUnique db.schools (fun x => x == p.SCHOOL_ID) = .ok s)
    (hp : getUnique db.paiements (fun x => x == p.PAYMENT_METHOD) = .ok pay)
    (hr : read_file db rows = .ok users)
    (hc : check_constraints db (users.map (fun u => u.username)) = .error e) :
    importBody p r rows db = (.error e, []) := by
  unfold importBody
  rw [hs, hp, hr]
  simp only [hc]

theorem mkVentes_content (db : DB) (fid : Nat) (arts : List (Nat × Nat))
    (vs : List Vente) (h : mkVentes db fid arts = .ok vs) :
    ∀ i (hi : i < arts.length) (hi2 : i < vs.length),
      ∃ a : Article,
        getUnique db.articles (fun x => x.id == (arts.get ⟨i, hi⟩).1) = .ok a ∧
        vs.get ⟨i, hi2⟩ =
          { facture := fid,
            name := a.name,
            prix := a.prix,
            duration_connection := a.duration_connection,
            duration_days_connection := a.duration_days_connection,
            duration_membership := a.duration_membership,
            duration_days_membership := a.duration_days_membership,
            number := (arts.get ⟨i, hi⟩).2 } := by
  induction arts generalizing vs with
  | nil => intro i hi hi2; exact absurd hi (by simp)
  | cons art rest ih =>
    simp only [mkVentes] at h
    cases hg : getUnique db.articles (fun a => a.id == art.1) with
    | error e => rw [hg, exc_bind_err] at h; cases h
    | ok article =>
      rw [hg, exc_bind_ok] at h
      cases hv : mkVentes db fid rest with
      | error e => rw [hv, exc_bind_err] at h; cases h
      | ok vs2 =>
        rw [hv, exc_bind_ok] at h
        injection h with h
        subst h
        intro i hi hi2
        cases i with
        | zero => exact ⟨article, hg, rfl⟩
        | succ n =>
          exact ih vs2 hv n (Nat.lt_of_succ_lt_succ hi)
            (Nat.lt_of_succ_lt_succ hi2)

theorem resetPasswords_kind (r : String → String → Nat)
    (us : List CSVUser) :
    ∀ ev ∈ resetPasswords r us, isResetEvent ev = true := by
  rw [resetPasswords_eq]
  intro ev hev
  obtain ⟨u, _, he⟩ := List.mem_map.mp hev
  rw [← he]
  rfl

theorem account_not_reset (ev : Event) (h : isAccountEvent ev = true) :
    isResetEvent ev = false := by
  cases ev <;> first | rfl | cases h

theorem invoice_not_reset (ev : Event) (h : isInvoiceEvent ev = true) :
    isResetEvent ev = false := by
  cases ev <;> first | rfl | cases h

theorem importBody_oracle (p : Params) (r1 r2 : String → String → Nat)
    (rows : List (List String)) (db : DB) :
    importBody p r1 rows db = importBody p r2 rows db := by
  unfold importBody
  simp only [resetPasswords_eq]

theorem importBody_trace_cases (p : Params) (r : String → String → Nat)
    (rows : List (List String)) (db : DB) :
    (importBody p r rows db).2 = [] ∨
    ∃ s pay users,
      getUnique db.schools (fun x => x == p.SCHOOL_ID) = .ok s ∧
      getUnique db.paiements (fun x => x == p.PAYMENT_METHOD) = .ok pay ∧
      read_file db rows = .ok users ∧
      check_constraints db (users.map (fun u => u.username)) = .ok () ∧
      (importBody p r rows db).2 =
        (createAccounts s p.COMMENT db users).2 ++ resetPasswords r users ++
          (if p.ARTICLES.isEmpty then []
           else (addInvoices p pay
             (createAccounts s p.COMMENT db users).1 users).2) := by
  cases hs : getUnique db.schools (fun x => x == p.SCHOOL_ID) with
  | error e => left; unfold importBody; rw [hs]
  | ok s =>
    cases hp : getUnique db.paiements (fun x => x == p.PAYMENT_METHOD) with
    | error e => left; unfold importBody; rw [hs, hp]
    | ok pay =>
      cases hr : read_file db rows with
      | error e => left; unfold importBody; rw [hs, hp, hr]
      | ok users =>
        cases hc : check_constraints db (users.map (fun u => u.username)) with
        | error e =>
          left; unfold importBody; rw [hs, hp, hr]; simp only [hc]
        | ok u =>
          cases u
          right
          refine ⟨s, pay, users, rfl, rfl, rfl, hc, ?_⟩
          rw [importBody_ok_eq p r rows db s pay users hs hp hr hc]
          by_cases hA : p.ARTICLES.isEmpty
          · rw [if_pos hA, if_pos hA, List.append_nil]
          · rw [if_neg hA, if_neg hA]

/-- C1: the transaction is all-or-nothing: whenever the body raises any
error, the resulting database state is the initial one (full rollback);
and in general the final state is either unchanged or the successful
result of the body. -/
theorem transaction_atomic (p : Params) (r : String → String → Nat)
    (rows : List (List String)) (db : DB) :
    (∀ e, (importBody p r rows db).1 = .error e →
        (run_transaction p r rows db).1 = db)
  ∧ ((run_transaction p r rows db).1 = db ∨
      (importBody p r rows db).1 = .ok ((run_transaction p r rows db).1)) := by
  constructor
  · intro e h
    exact run_transaction_of_err p r rows db e h
  · cases h : (importBody p r rows db).1 with
    | error e => exact .inl (run_transaction_of_err p r rows db e h)
    | ok db2 =>
      right
      rw [run_transaction_of_ok p r rows db db2 h]

/-- C3: the trace of any run splits into account-creation events, then
password-reset calls, then invoice events (so every account row is
created before any reset call, and every reset call before any invoice
row); and when the uniqueness check raises after a successful parse, the
run performs no event at all and leaves the database unchanged. -/
theorem import_phase_order (p : Params) (r : String → String → Nat)
    (rows : List (List String)) (db : DB) :
    (∃ e1 e2 e3, (run_transaction p r rows db).2 = e1 ++ e2 ++ e3
      ∧ (∀ ev ∈ e1, isAccountEvent ev = true)
      ∧ (∀ ev ∈ e2, isResetEvent ev = true)
      ∧ (∀ ev ∈ e3, isInvoiceEvent ev = true))
  ∧ (∀ users, read_file db rows = .ok users →
      ∀ e, check_constraints db (users.map (fun u => u.username)) = .error e →
        run_transaction p r rows db = (db, [])) := by
  constructor
  · rw [run_transaction_snd]
    rcases importBody_trace_cases p r rows db with htr |
      ⟨s, pay, users, hs, hp, hr, hc, htr⟩
    · refine ⟨[], [], [], by rw [htr]; rfl, ?_, ?_, ?_⟩ <;>
        (intro ev hev; cases hev)
    · refine ⟨(createAccounts s p.COMMENT db users).2, resetPasswords r users,
        _, htr, createAccounts_events_kind s p.COMMENT db users,
        resetPasswords_kind r users, ?_⟩
      intro ev hev
      by_cases hA : p.ARTICLES.isEmpty
      · rw [if_pos hA] at hev; cases hev
      · rw [if_neg hA] at hev
        exact addInvoices_events_kind p pay _ users ev hev
  · intro users hr e hc
    obtain ⟨e2, h⟩ := importBody_err_check p r rows db users e hr hc
    have h1 : (run_transaction p r rows db).1 = db :=
      run_transaction_of_err p r rows db e2 (by rw [h])
    have h2 : (run_transaction p r rows db).2 = [] := by
      rw [run_transaction_snd, h]
    exact Prod.ext h1 h2

/-- C7: with an empty ARTICLES list a successful import creates no invoice
and no line item; with a nonempty list it creates exactly one invoice per
parsed user and one line item per ARTICLES entry per user; and each line
item built by the article loop carries the catalog article's name, price
and durations together with the pair's quantity and the invoice
reference. -/
theorem articles_drive_invoices (p : Params) (r : String → String → Nat)
    (rows : List (List String)) (db db2 : DB) :
    (p.ARTICLES = [] → (importBody p r rows db).1 = .ok db2 →
        db2.factures = db.factures ∧ db2.ventes = db.ventes)
  ∧ (∀ users s pay,
      getUnique db.schools (fun x => x == p.SCHOOL_ID) = .ok s →
      getUnique db.paiements (fun x => x == p.PAYMENT_METHOD) = .ok pay →
      read_file db rows = .ok users →
      (importBody p r rows db).1 = .ok db2 →
      db2.factures.length = db.factures.length +
        (if p.ARTICLES.isEmpty then 0 else users.length)
    ∧ db2.ventes.length = db.ventes.length +
        (if p.ARTICLES.isEmpty then 0 else users.length * p.ARTICLES.length))
  ∧ (∀ fid arts vs, mkVentes db fid arts = .ok vs →
      vs.length = arts.length ∧
      ∀ i (hi : i < arts.length) (hi2 : i < vs.length),
        ∃ a : Article,
          getUnique db.articles (fun x => x.id == (arts.get ⟨i, hi⟩).1) = .ok a ∧
          vs.get ⟨i, hi2⟩ =
            { facture := fid,
              name := a.name,
              prix := a.prix,
              duration_connection := a.duration_connection,
              duration_days_connection := a.duration_days_connection,
              duration_membership := a.duration_membership,
              duration_days_membership := a.duration_days_membership,
              number := (arts.get ⟨i, hi⟩).2 }) := by
  refine ⟨?_, ?_, ?_⟩
  · intro hA hok
    cases hs : getUnique db.schools (fun x => x == p.SCHOOL_ID) with
    | error e => rw [importBody_err_school p r rows db e hs] at hok; cases hok
    | ok s =>
    cases hp : getUnique db.paiements (fun x => x == p.PAYMENT_METHOD) with
    | error e =>
      rw [importBody_err_paiement p r rows db s e hs hp] at hok; cases hok
    | ok pay =>
    cases hr : read_file db rows with
    | error e =>
      rw [importBody_err_readfile p r rows db s pay e hs hp hr] at hok
      cases hok
    | ok users =>
    cases hc : check_constraints db (users.map (fun u => u.username)) with
    | error e =>
      rw [importBody_err_check2 p r rows db s pay users e hs hp hr hc] at hok
      cases hok
    | ok u =>
      cases u
      rw [importBody_ok_eq p r rows db s pay users hs hp hr hc] at hok
      have hAe : p.ARTICLES.isEmpty = true := by rw [hA]; rfl
      rw [if_pos hAe] at hok
      injection hok with hok
      rw [← hok]
      exact ⟨createAccounts_factures s p.COMMENT db users,
        createAccounts_ventes s p.COMMENT db users⟩
  · intro users s pay hs hp hr hok
    cases hc : check_constraints db (users.map (fun u => u.username)) with
    | error e =>
      rw [importBody_err_check2 p r rows db s pay users e hs hp hr hc] at hok
      cases hok
    | ok u =>
      cases u
      rw [importBody_ok_eq p r rows db s pay users hs hp hr hc] at hok
      by_cases hA : p.ARTICLES.isEmpty
      · rw [if_pos hA] at hok
        injection hok with hok
        rw [← hok, if_pos hA, if_pos hA]
        exact ⟨by rw [createAccounts_factures]; simp,
          by rw [createAccounts_ventes]; simp⟩
      · rw [if_neg hA] at hok
        obtain ⟨h1, h2⟩ := addInvoices_ok_counts p pay _ db2 users hok
        rw [if_neg hA, if_neg hA]
        rw [createAccounts_factures] at h1
        rw [createAccounts_ventes] at h2
        exact ⟨h1, h2⟩
  · intro fid arts vs h
    exact ⟨mkVentes_length db fid arts vs h, mkVentes_content db fid arts vs h⟩

/-- C9: every account row the import creates carries state STATE_ACTIVE,
email state EMAIL_STATE_VERIFIED, the fixed school and the fixed comment,
whatever the CSV contents. -/
theorem created_accounts_fields (p : Params) (r : String → String → Nat)
    (rows : List (List String)) (db : DB) (a : Adherent)
    (h : Event.createAdherent a ∈ (run_transaction p r rows db).2) :
    a.state = STATE_ACTIVE ∧ a.email_state = EMAIL_STATE_VERIFIED ∧
    a.school = p.SCHOOL_ID ∧ a.comment = p.COMMENT := by
  rw [run_transaction_snd] at h
  rcases importBody_trace_cases p r rows db with htr |
    ⟨s, pay, users, hs, hp, hr, hc, htr⟩
  · rw [htr] at h; cases h
  · rw [htr] at h
    simp only [List.mem_append] at h
    rcases h with (h | h) | h
    · obtain ⟨h1, h2, h3, h4⟩ :=
        createAccounts_created_fields s p.COMMENT db users a h
      have hsch := (getUnique_ok db.schools _ s hs).2
      rw [beq_iff_eq] at hsch
      exact ⟨h1, h2, hsch ▸ h3, h4⟩
    · rw [resetPasswords_eq] at h
      obtain ⟨u, _, he⟩ := List.mem_map.mp h
      cases he
    · by_cases hA : p.ARTICLES.isEmpty
      · rw [if_pos hA] at h; cases h
      · rw [if_neg hA] at h
        have hk := addInvoices_events_kind p pay _ users _ h
        simp [isInvoiceEvent] at hk

/-- C10: the import's outcome never depends on the password-reset HTTP
responses (they are discarded, so a failed call aborts nothing), and on a
run that reaches the reset phase exactly one reset request is posted per
parsed user, carrying that user's username and email, in order. -/
theorem reset_posts_per_user (p : Params) (rows : List (List String))
    (db : DB) :
    (∀ r1 r2, run_transaction p r1 rows db = run_transaction p r2 rows db)
  ∧ (∀ r users s pay,
      getUnique db.schools (fun x => x == p.SCHOOL_ID) = .ok s →
      getUnique db.paiements (fun x => x == p.PAYMENT_METHOD) = .ok pay →
      read_file db rows = .ok users →
      check_constraints db (users.map (fun u => u.username)) = .ok () →
      (run_transaction p r rows db).2.filter isResetEvent =
        users.map (fun u => Event.resetPost u.username u.email)) := by
  constructor
  · intro r1 r2
    simp only [run_transaction, importBody_oracle p r1 r2 rows db]
  · intro r users s pay hs hp hr hc
    rw [run_transaction_snd,
      importBody_ok_eq p r rows db s pay users hs hp hr hc]
    have hacc : ((createAccounts s p.COMMENT db users).2.filter
        isResetEvent) = [] :=
      List.filter_eq_nil_iff.mpr (fun ev hev => by
        rw [account_not_reset ev
          (createAccounts_events_kind s p.COMMENT db users ev hev)]
        simp)
    have hres : ((resetPasswords r users).filter isResetEvent) =
        resetPasswords r users :=
      List.filter_eq_self.mpr (resetPasswords_kind r users)
    by_cases hA : p.ARTICLES.isEmpty
    · rw [if_pos hA]
      simp only [List.filter_append, hacc, hres, List.nil_append]
      exact resetPasswords_eq r users
    · rw [if_neg hA]
      have hinv : (((addInvoices p pay (createAccounts s p.COMMENT db users).1
          users).2).filter isResetEvent) = [] :=
        List.filter_eq_nil_iff.mpr (fun ev hev => by
          rw [invoice_not_reset ev
            (addInvoices_events_kind p pay _ users ev hev)]
          simp)
      simp only [List.filter_append, hacc, hres, hinv, List.nil_append,
        List.append_nil]
      exact resetPasswords_eq r users

/-! ### Witnesses: the claim theorems applied at concrete inputs -/

/-- C1 witness: on the empty database the school lookup fails and the
transaction leaves the state unchanged. -/
theorem transaction_atomic_witness :
    (importBody defaultParams ok200 [] emptyDB).1 = .error .doesNotExist ∧
    (run_transaction defaultParams ok200 [] emptyDB).1 = emptyDB :=
  ⟨rfl, (transaction_atomic defaultParams ok200 [] emptyDB).1 .doesNotExist rfl⟩

/-- C2 witness: with `jane-d` already taken, `check_constraints` raises
and its message names the taken pseudo. -/
theorem check_constraints_spec_witness :
    check_constraints db1 ["jane-d", "zz"] =
      .error (.exception "The following usernames are not unique : jane-d") := by
  have h := (check_constraints_spec db1 ["jane-d", "zz"]).2
    ⟨jane0, List.mem_singleton_self jane0, by decide⟩
  rw [h]
  rfl

/-- C3 witness: importing `rows0` into `db1` (where `jane-d` is taken)
parses, fails the uniqueness check, and performs no event and no state
change. -/
theorem import_phase_order_witness :
    run_transaction defaultParams ok200 rows0 db1 = (db1, []) :=
  (import_phase_order defaultParams ok200 rows0 db1).2 users0 rfl
    (.exception "The following usernames are not unique : jane-d") rfl

/-- C4 witness: the first parsed user of `rows0` gets username `jane-d`
derived from `jane.d@example.org`. -/
theorem username_from_email_witness :
    u1.username =
      String.mk ((u1.email.data.takeWhile (fun c => c != '@')).map
        (fun c => if c = '.' then '-' else c)) :=
  username_from_email db1 rows0 users0 rfl u1 (List.mem_cons_self u1 [u2])

/-- C5 witness: `B 101-2` resolves to room 7 of building `B` in `db0`,
and `B101-2` (no space) raises `ValueError`. -/
theorem room_resolution_witness :
    get_room db0 "B 101-2" = .ok room7 ∧
    get_room db0 "B101-2" = .error .valueError := by
  constructor
  · have h := (room_resolution db0 "B 101-2").1 (by decide)
    rw [h]
    rfl
  · exact (room_resolution db0 "B101-2").2 (by decide)

/-- C6 witness: a two-column row makes `read_file` fail. -/
theorem read_file_columns_witness :
    ∃ e, read_file db0 [["a", "b"]] = .error e :=
  (read_file_columns db0 [["a", "b"]]).2.2 ["a", "b"]
    (List.mem_singleton_self _) (by decide)

/-- C7 witness: importing `rows0` into `db0` with an empty ARTICLES list
succeeds and creates no invoice row and no line-item row. -/
theorem articles_drive_invoices_witness :
    dbE.factures = db0.factures ∧ dbE.ventes = db0.ventes :=
  (articles_drive_invoices paramsNoArticles ok200 rows0 db0 dbE).1 rfl rfl

/-- C8 witness: evicting room 7 in `db1` clears `jane0`'s room field and
nothing else. -/
theorem force_move_evicts_first_witness :
    force_move db1 room7 =
      { db1 with adherents := evictFirst room7.id db1.adherents } :=
  (force_move_evicts_first db1 room7 (by decide)).1

/-- C9 witness: the account row created for the first user of `rows0` on
`db0` is active, email-verified, and carries the fixed school and
comment. -/
theorem created_accounts_fields_witness :
    adhJaneEv.state = STATE_ACTIVE ∧
    adhJaneEv.email_state = EMAIL_STATE_VERIFIED ∧
    adhJaneEv.school = defaultParams.SCHOOL_ID ∧
    adhJaneEv.comment = defaultParams.COMMENT :=
  created_accounts_fields defaultParams ok200 rows0 db0 adhJaneEv (by decide)

/-- C10 witness: the run is oracle-independent, and the trace of a
successful import of `rows0` into `db0` contains exactly one reset post
per user with that user's username and email. -/
theorem reset_posts_per_user_witness :
    run_transaction defaultParams ok200 rows0 db0 =
      run_transaction defaultParams (fun _ _ => 500) rows0 db0 ∧
    (run_transaction defaultParams ok200 rows0 db0).2.filter isResetEvent =
      [Event.resetPost "jane-d" "jane.d@example.org",
       Event.resetPost "a-p" "a.p@x.fr"] := by
  constructor
  · exact (reset_posts_per_user defaultParams rows0 db0).1 ok200 (fun _ _ => 500)
  · have h := (reset_posts_per_user defaultParams rows0 db0).2 ok200 users0
      1 1 rfl rfl rfl rfl
    rw [h]
    rfl

end ImportScript
